import Mathlib

/-!
Shallow embedding of the `lovartai/flags` value-resolution engine.

The embedding follows the TypeScript sources:

* `src/statsig/flags.ts` — flag URL-override parser and `FlagStore.resolve`;
* the parameter-store module (`ParamStore`): `tryCoerce`,
  `ParamStore.parseUrlOverrides`, `ParamStore.resolve`.

Modelling conventions:

* JavaScript runtime values are modelled by the inductive `Value`; numbers are
  modelled as `Int` (the claims only exercise integer-valued numbers).
* `URLSearchParams` iteration is modelled by handing the functions the list of
  decoded `(name, value)` query pairs in iteration order.
* External facilities with no source in this repository — `JSON.parse`, the
  `Number` string conversion, and lodash `merge` — are parameters of the
  embedding (`JsEnv`); theorems state the facts they need about them as
  hypotheses that hold of the real JavaScript functions.
* zod schemas are modelled by `Schema`: `safeParse` returns `some data` on
  success (zod's possibly transformed `.data`) and `none` on failure.
* Exceptions are modelled with `Except`: the flag remote provider is an
  `Except Unit FeatureGate`, and `ParamStore.resolve` returns
  `Except String ParamState` (the `.error` carries the thrown message).
-/

namespace Flags

/-! ### JavaScript string methods

The source manipulates JavaScript strings with `startsWith`, `slice`,
`trim`, `toLowerCase`, `endsWith`, `indexOf('.')`-based splitting and lodash
dot-path splitting. These are modelled here by structurally recursive
functions over the character list of a `String`, so every concrete resolution
evaluates inside Lean's kernel. JavaScript strings are sequences of UTF-16
code units; the claims exercise only code points for which code units and
characters coincide. -/

/-- JS `s.startsWith(pre)`. -/
def jsStartsWith (s pre : String) : Bool := pre.data.isPrefixOf s.data

/-- JS `s.endsWith(suf)`. -/
def jsEndsWith (s suf : String) : Bool := suf.data.isSuffixOf s.data

/-- JS `s.slice(n)` for a non-negative `n`. -/
def jsDrop (s : String) (n : Nat) : String := ⟨s.data.drop n⟩

/-- JS whitespace as trimmed by `String.prototype.trim` (the ASCII range;
the exotic Unicode whitespace code points are not exercised by any claim). -/
def isJsWs (c : Char) : Bool :=
  c == ' ' || c == '\t' || c == '\n' || c == '\r' || c == '\x0b' || c == '\x0c'

/-- JS `s.trim()`. -/
def jsTrim (s : String) : String :=
  ⟨((s.data.dropWhile isJsWs).reverse.dropWhile isJsWs).reverse⟩

/-- Lowercasing of one character; the query-string comparisons only ever
meet ASCII, where JS `toLowerCase` adds 32 to an upper-case letter. -/
def lowerChar (c : Char) : Char :=
  if 'A' ≤ c && c ≤ 'Z' then Char.ofNat (c.toNat + 32) else c

/-- JS `s.toLowerCase()`. -/
def jsToLower (s : String) : String := ⟨s.data.map lowerChar⟩

/-- Splits a character list at every occurrence of `c` (an occurrence in JS
terms: `indexOf`, `slice` and lodash path splitting all cut at `.`). -/
def splitCharAux (c : Char) : List Char → List Char → List (List Char)
  | [], acc => [acc.reverse]
  | x :: xs, acc =>
      if x == c then acc.reverse :: splitCharAux c xs []
      else splitCharAux c xs (x :: acc)

/-- The components of `s` between its dots: `[s]` exactly when `s` has no
dot (`indexOf('.') < 0`); with a dot, the head is `s.slice(0, dotIndex)`, the
tail rejoined with dots is `s.slice(dotIndex + 1)`, and the whole list is the
lodash path of `s`. -/
def jsSplitOnDot (s : String) : List String := (splitCharAux '.' s.data []).map String.mk

/-- Rejoins components with dots (used to recover `rest.slice(dotIndex + 1)`
from the component list). -/
def jsJoinDot (parts : List String) : String :=
  ⟨List.intercalate ['.'] (parts.map String.data)⟩

/-- JavaScript/JSON runtime value. Objects keep their fields as an
association list in insertion order, which matches string-keyed JavaScript
object semantics for the operations the code performs. Numbers are modelled
as integers (the claims only exercise integer-valued numbers). -/
inductive Value where
  | str (s : String)
  | num (n : Int)
  | bool (b : Bool)
  | null
  | arr (elems : List Value)
  | obj (fields : List (String × Value))

/-- JavaScript object property update `m[k] = v`: overwrite the existing
property in place, or append a new one. -/
def assign (m : List (String × α)) (k : String) (v : α) : List (String × α) :=
  match m with
  | [] => [(k, v)]
  | (k', v') :: rest => if k' == k then (k, v) :: rest else (k', v') :: assign rest k v

/-- Truthiness of an optional string (`idType ? ... : ...` in flags.ts):
`undefined`, `null` and the empty string are falsy, every other string truthy. -/
def truthyStr : Option String → Bool
  | some s => s != ""
  | none => false

/-! ## Flag store (src/statsig/flags.ts) -/

/-- Flag definition (types.ts `FlagDefinition`); `description` and `keep`
carry no behaviour and are omitted. -/
structure FlagDefinition where
  testOverride : Option Bool := none
  override : Option Bool := none
deriving DecidableEq, Repr

/-- Statsig feature gate (types.ts `FeatureGate`); `details` is unused by the
resolution code and omitted. `idType = none` models both `undefined` and
`null`. -/
structure FeatureGate where
  value : Bool
  idType : Option String := none
deriving DecidableEq, Repr

/-- Value source, shared by flags and parameters. -/
inductive Source where
  | url | test | override | remote | fallback
deriving DecidableEq, Repr

/-- Flag resolution result (types.ts `FlagState`). -/
structure FlagState where
  flag : Bool
  source : Source
deriving DecidableEq, Repr

/-- flags.ts `TRUE_LITERALS`. -/
def TRUE_LITERALS : List String := ["1", "true"]

/-- The loop body of flags.ts `parseUrlOverrides`: a query parameter whose
name starts with `ff.` is recorded under the name with the prefix stripped,
with value `true` exactly when the trimmed, lowercased value string is a
member of `TRUE_LITERALS`; every other parameter is ignored. The query
string is modelled by its decoded entry list, an absent query string by the
empty list. -/
def flagOverrideStep (overrides : List (String × Bool)) (e : String × String) :
    List (String × Bool) :=
  if jsStartsWith e.1 "ff." then
    assign overrides (jsDrop e.1 3) (TRUE_LITERALS.contains (jsToLower (jsTrim e.2)))
  else overrides

/-- flags.ts `parseUrlOverrides` is the fold of `flagOverrideStep` over the
query entries, starting from the empty mapping. -/
def parseUrlOverrides (entries : List (String × String)) : List (String × Bool) :=
  entries.foldl flagOverrideStep []

/-- flags.ts `FlagStore.resolve`. The remote step — `options.gate` if
supplied, otherwise `getStatsigClientSync().getFeatureGate(key, ...)` — is
modelled by the `remote` argument: `.ok gate` when the `try` block produces a
gate, `.error ()` when it throws (client not initialized or provider error).
`isTestEnv()` is the `testEnv` argument. -/
def FlagStore.resolve (definitions : List (String × FlagDefinition)) (key : String)
    (entries : List (String × String)) (testEnv : Bool)
    (remote : Except Unit FeatureGate) : FlagState :=
  match List.lookup key definitions with
  | none => { flag := false, source := .fallback }
  | some d =>
    match List.lookup key (parseUrlOverrides entries) with
    | some b => { flag := b, source := .url }
    | none =>
      if testEnv && d.testOverride.isSome then
        { flag := d.testOverride.getD false, source := .test }
      else if d.override.isSome then
        { flag := d.override.getD false, source := .override }
      else
        match remote with
        | .ok gate =>
            { flag := gate.value,
              source := if truthyStr gate.idType then .remote else .fallback }
        | .error _ => { flag := false, source := .fallback }

/-- flags.ts `FlagStore.getFlagState` — delegates to `resolve`. -/
def FlagStore.getFlagState (definitions : List (String × FlagDefinition)) (key : String)
    (entries : List (String × String)) (testEnv : Bool)
    (remote : Except Unit FeatureGate) : FlagState :=
  FlagStore.resolve definitions key entries testEnv remote

/-- flags.ts `FlagStore.getFlag` — the `flag` field of `getFlagState`. -/
def FlagStore.getFlag (definitions : List (String × FlagDefinition)) (key : String)
    (entries : List (String × String)) (testEnv : Bool)
    (remote : Except Unit FeatureGate) : Bool :=
  (FlagStore.getFlagState definitions key entries testEnv remote).flag

/-! ## Parameter store -/

/-- A zod validator (`z.ZodType`): `safeParse v = some data` models a
successful parse with result `.data` (zod may transform the accepted value),
`none` models failure (carrying a `ZodError`). -/
structure Schema where
  safeParse : Value → Option Value

/-- Structure `ParamDefinition`; `description` carries no behaviour and is omitted. -/
structure ParamDefinition where
  schema : Schema
  fallback : Value
  testOverride : Option Value := none
  override : Option Value := none

/-- Structure `ParamStoreDefinition`; `description` and `keep` carry no behaviour and
are omitted. -/
structure ParamStoreDefinition where
  params : List (String × ParamDefinition)

/-- External JavaScript facilities used by the parameter URL parser, none of
which have source in this repository: `JSON.parse` (`none` models a thrown
`SyntaxError`), the `Number` string conversion (`none` models `NaN`), and
lodash `merge`. -/
structure JsEnv where
  jsonParse : String → Option Value
  jsNumber : String → Option Int
  merge : Value → Value → Value

/-- The delimiter test of `tryCoerce`: the trimmed string starts with `\x7b`
and ends with `\x7d`, or starts with `[` and ends with `]`. -/
def looksLikeJsonContainer (raw : String) : Bool :=
  let trimmed := jsTrim raw
  (jsStartsWith trimmed "\x7b" && jsEndsWith trimmed "\x7d")
    || (jsStartsWith trimmed "[" && jsEndsWith trimmed "]")

/-- The JSON step of `tryCoerce`: attempt `JSON.parse` on the trimmed string
only when the delimiter test passes; a parse exception is swallowed
(`none`). -/
def jsonAttempt (env : JsEnv) (raw : String) : Option Value :=
  if looksLikeJsonContainer raw then env.jsonParse (jsTrim raw) else none

/-- The literal tail of `tryCoerce`: the sequential `true`/`false`/`null`
checks, each accepted only if the schema accepts that exact value; otherwise
the raw string is kept. -/
def tryCoerceLiterals (dd : ParamDefinition) (raw : String) : Value :=
  if raw == "true" && (dd.schema.safeParse (.bool true)).isSome then .bool true
  else if raw == "false" && (dd.schema.safeParse (.bool false)).isSome then .bool false
  else if raw == "null" && (dd.schema.safeParse .null).isSome then .null
  else .str raw

/-- Function `tryCoerce(raw, def)`: JSON object/array parse attempt first; then, when a
definition (hence a schema) is known, a numeric parse accepted only if the
schema accepts the number, then the boolean/null literals; otherwise the raw
string. -/
def tryCoerce (env : JsEnv) (raw : String) (d : Option ParamDefinition) : Value :=
  match jsonAttempt env raw with
  | some v => v
  | none =>
    match d with
    | none => .str raw
    | some dd =>
      match env.jsNumber raw with
      | some n =>
          if (dd.schema.safeParse (.num n)).isSome then .num n
          else tryCoerceLiterals dd raw
      | none => tryCoerceLiterals dd raw

/-- lodash `set(obj, path, v)` restricted to dot paths, as produced by
splitting the override key on `.`: walk the path, reusing an existing object
at each hop and replacing a missing or non-object value with a fresh empty
object. (lodash would treat numeric path components as array indices; the
parser only ever feeds string keys of query parameters, and no claim
exercises index paths.) -/
def setPath (fields : List (String × Value)) : List String → Value → List (String × Value)
  | [], _ => fields
  | [k], v => assign fields k v
  | k :: k' :: ks, v =>
      let child : List (String × Value) :=
        match List.lookup k fields with
        | some (Value.obj fs) => fs
        | _ => []
      assign fields k (Value.obj (setPath child (k' :: ks) v))

/-- The per-entry handling of `ParamStore.parseUrlOverrides`: query parameters prefixed `fp.`.
A name with a dot after the prefix is the dotted form
`fp.<store>.<param>=<value>`: the value is coerced with `tryCoerce` against
the declared definition of that exact (store, param) pair and written with
lodash `set` along the dotted path. A name with no further dot is the
whole-store form `fp.<store>=<json>`: the value is JSON-parsed and, only when
it is a plain object (not null, not an array), merged over that store's
current override set; otherwise the entry is dropped. `dotIndex >= 0` in the
source corresponds to `splitOn` producing at least two components; the
component list is exactly the lodash path of `rest`, its head is
`rest.slice(0, dotIndex)` and the tail rejoined is `rest.slice(dotIndex + 1)`. -/
def paramOverrideStep (env : JsEnv) (definitions : List (String × ParamStoreDefinition))
    (result : List (String × Value)) (e : String × String) : List (String × Value) :=
  if jsStartsWith e.1 "fp." then
    let rest := jsDrop e.1 3
    match jsSplitOnDot rest with
    | [] => result
    | [_] =>
        match env.jsonParse e.2 with
        | some (Value.obj fs) =>
            let cur := (List.lookup rest result).getD (Value.obj [])
            assign result rest (env.merge cur (Value.obj fs))
        | _ => result
    | storeKey :: c :: cs =>
        let paramKey := jsJoinDot (c :: cs)
        let paramDef := (List.lookup storeKey definitions).bind
          (fun sd => List.lookup paramKey sd.params)
        setPath result (storeKey :: c :: cs) (tryCoerce env e.2 paramDef)
  else result

/-- Method `ParamStore.parseUrlOverrides` is the fold of `paramOverrideStep` over
the query entries, starting from the empty two-level mapping. -/
def ParamStore.parseUrlOverrides (env : JsEnv)
    (definitions : List (String × ParamStoreDefinition))
    (entries : List (String × String)) : List (String × Value) :=
  entries.foldl (paramOverrideStep env definitions) []

/-- The Statsig parameter-store snapshot handle, as the resolution code uses
it: the probe `__configuration[paramKey]` (`none` models `undefined`) and
`get(paramKey, fallback)`. -/
structure ClientStore where
  configuration : String → Option Value
  get : String → Value → Value

/-- Parameter resolution result (`ParamState`): `error` records whether the
`error` field is present, `fallback` is the optional `fallback` field. -/
structure ParamState where
  value : Value
  source : Source
  error : Bool := false
  fallback : Option Value := none

/-- The two-level read `urlOverrides[storeKey]?.[paramKey]`. The parser only
ever stores plain objects at store keys, so a non-object store value (mapped
to `none`) never occurs. -/
def lookup2 (overrides : List (String × Value)) (storeKey paramKey : String) : Option Value :=
  match List.lookup storeKey overrides with
  | some (Value.obj fs) => List.lookup paramKey fs
  | _ => none

/-- The priority chain of `ParamStore.resolve` (the candidate value and its
source, before validation): URL override, then test override when the test
predicate holds, then static override, then the remote snapshot — fetched via
`get(paramKey, fallback)` only when `__configuration` has an entry for the
key — and finally the declared fallback. -/
def resolvePriority (d : ParamDefinition) (urlVal : Option Value) (testEnv : Bool)
    (clientStore : ClientStore) (paramKey : String) : Value × Source :=
  match urlVal with
  | some v => (v, .url)
  | none =>
    if testEnv && d.testOverride.isSome then (d.testOverride.getD d.fallback, .test)
    else if d.override.isSome then (d.override.getD d.fallback, .override)
    else
      match clientStore.configuration paramKey with
      | some _ => (clientStore.get paramKey d.fallback, .remote)
      | none => (d.fallback, .fallback)

/-- The schema-validation tail of `ParamStore.resolve`: on success the
validator's data with the source unchanged; on failure with source `remote`
the declared fallback re-tagged `fallback` with the error; on any other
failing source the raw candidate with its source, the error, and the declared
fallback in the `fallback` field. -/
def schemaGate (d : ParamDefinition) (value : Value) (source : Source) : ParamState :=
  match d.schema.safeParse value with
  | some data => { value := data, source := source }
  | none =>
      if source = Source.remote then
        { value := d.fallback, source := Source.fallback, error := true }
      else
        { value := value, source := source, error := true, fallback := some d.fallback }

/-- Method `ParamStore.resolve`: unknown store and unknown param throw with the
source's exact messages; otherwise the priority chain picks a candidate and
the schema gate produces the state. The snapshot handle (from
`options.statsigStore` or `getStatsigClientSync().getParameterStore(...)`) is
the `clientStore` argument; `isTestEnv()` is `testEnv`. -/
def ParamStore.resolve (env : JsEnv) (definitions : List (String × ParamStoreDefinition))
    (storeKey paramKey : String) (entries : List (String × String)) (testEnv : Bool)
    (clientStore : ClientStore) : Except String ParamState :=
  match List.lookup storeKey definitions with
  | none => .error ("[ParamStore] Unknown store: " ++ storeKey)
  | some storeDef =>
    match List.lookup paramKey storeDef.params with
    | none => .error ("[ParamStore] Unknown param: " ++ storeKey ++ "." ++ paramKey)
    | some d =>
      let urlVal := lookup2 (ParamStore.parseUrlOverrides env definitions entries) storeKey paramKey
      let vs := resolvePriority d urlVal testEnv clientStore paramKey
      .ok (schemaGate d vs.1 vs.2)

/-- Method `ParamStore.getParamState` — delegates to `resolve`. -/
def ParamStore.getParamState (env : JsEnv) (definitions : List (String × ParamStoreDefinition))
    (storeKey paramKey : String) (entries : List (String × String)) (testEnv : Bool)
    (clientStore : ClientStore) : Except String ParamState :=
  ParamStore.resolve env definitions storeKey paramKey entries testEnv clientStore

/-- Method `ParamStore.getParam` — the `value` field of a successful resolution. -/
def ParamStore.getParam (env : JsEnv) (definitions : List (String × ParamStoreDefinition))
    (storeKey paramKey : String) (entries : List (String × String)) (testEnv : Bool)
    (clientStore : ClientStore) : Except String Value :=
  (ParamStore.resolve env definitions storeKey paramKey entries testEnv clientStore).map
    (fun st => st.value)

/-! ## Shared concrete instances used by witnesses and counterexamples -/

/-- Does the value satisfy the JS test `typeof v === 'object' && v !== null
&& !Array.isArray(v)` used by the whole-store branch? -/
def Value.isObj : Value → Bool
  | .obj _ => true
  | _ => false

/-- A concrete external environment: `JSON.parse` recognizes the one array
literal the counterexamples need, `Number` recognizes the decimal literal 42,
and merge replaces (no witness depends on merge). -/
def env0 : JsEnv :=
  { jsonParse := fun s => if s == "[1,2]" then some (.arr [.num 1, .num 2]) else none
    jsNumber := fun s => if s == "42" then some 42 else none
    merge := fun _ b => b }

/-- A model of `z.number()`: accepts exactly numbers, returning them
unchanged. -/
def numberSchema : Schema := ⟨fun v => match v with | .num n => some (.num n) | _ => none⟩

/-- A model of `z.number().transform(n => n + 1)` — a legal
`z.ZodType<number>` whose successful parse transforms the accepted value. -/
def incSchema : Schema := ⟨fun v => match v with | .num n => some (.num (n + 1)) | _ => none⟩

/-- A schema that rejects every value (for instance
`z.number().refine(() => false)`). -/
def rejectAllSchema : Schema := ⟨fun _ => none⟩

/-- A number parameter with fallback 0. -/
def countParam : ParamDefinition := { schema := numberSchema, fallback := .num 0 }

/-- A parameter whose schema transforms accepted values, fallback 0. -/
def transformParam : ParamDefinition := { schema := incSchema, fallback := .num 0 }

/-- A parameter whose schema rejects every value, fallback 0. -/
def rejectParam : ParamDefinition := { schema := rejectAllSchema, fallback := .num 0 }

/-- One store `s` with one number parameter `count` of fallback 0. -/
def storeDefs : List (String × ParamStoreDefinition) := [("s", ⟨[("count", countParam)]⟩)]

/-- One store `s` with one parameter `p` whose schema transforms its input. -/
def transformDefs : List (String × ParamStoreDefinition) := [("s", ⟨[("p", transformParam)]⟩)]

/-- One store `s` with one parameter `p` whose schema rejects everything —
in particular its own declared fallback. -/
def rejectDefs : List (String × ParamStoreDefinition) := [("s", ⟨[("p", rejectParam)]⟩)]

/-- A snapshot handle with no configuration entries. -/
def cs0 : ClientStore := ⟨fun _ => none, fun _ fb => fb⟩

/-- Another snapshot handle with no configuration entries but a different
`get`, to exhibit independence from `get`. -/
def csAlt : ClientStore := ⟨fun _ => none, fun _ _ => .str "other"⟩

/-- A snapshot handle whose configuration has every entry and whose `get`
returns a string (rejected by `numberSchema` and `rejectAllSchema`). -/
def csStr : ClientStore := ⟨fun _ => some .null, fun _ _ => .str "remote"⟩

/-- Spec-side definition for claim C1, following the claim's words: the
sources the strict short-circuiting priority permits, given whether a URL
override exists for the exact key, the test-environment predicate, whether a
`testOverride` is declared and whether a static `override` is declared. The
first three cases are singletons; only the choice between `remote` and
`fallback` is left to the remote step. -/
def specAllowedSources (urlHit testEnv testDeclared overrideDeclared : Bool) : List Source :=
  if urlHit then [.url]
  else if testEnv && testDeclared then [.test]
  else if overrideDeclared then [.override]
  else [.remote, .fallback]

/-! ## Helper lemmas -/

theorem lookup_assign (m : List (String × α)) (k' : String) (v : α) (k : String) :
    List.lookup k (assign m k' v) = if k = k' then some v else List.lookup k m := by
  induction m with
  | nil =>
      by_cases h : k = k' <;> simp [assign, List.lookup_cons, h, beq_false_of_ne]
  | cons p t ih =>
      obtain ⟨a, b⟩ := p
      by_cases hak : a = k'
      · subst hak
        by_cases h : k = a <;> simp [assign, List.lookup_cons, h, beq_false_of_ne]
      · have hak' : (a == k') = false := beq_false_of_ne hak
        by_cases h : k = a
        · subst h
          simp [assign, hak', List.lookup_cons, ih, beq_false_of_ne hak, hak]
        · simp [assign, hak', List.lookup_cons, beq_false_of_ne h, ih]

theorem lookup_flag_foldl (entries : List (String × String))
    (acc : List (String × Bool)) (k : String) :
    List.lookup k (entries.foldl flagOverrideStep acc)
      = match entries.reverse.find?
          (fun e => jsStartsWith e.1 "ff." && (jsDrop e.1 3 == k)) with
        | some e => some (TRUE_LITERALS.contains (jsToLower (jsTrim e.2)))
        | none => List.lookup k acc := by
  induction entries using List.reverseRecOn with
  | nil => simp
  | append_singleton t e ih =>
      rw [List.foldl_append]
      simp only [List.foldl_cons, List.foldl_nil, List.reverse_append, List.reverse_cons,
        List.reverse_nil, List.nil_append, List.cons_append, List.find?_cons]
      by_cases hpre : jsStartsWith e.1 "ff." = true
      · by_cases hk : jsDrop e.1 3 = k
        · have hbeq : (jsDrop e.1 3 == k) = true := by simp [hk]
          simp only [hpre, hbeq, Bool.and_self, flagOverrideStep, if_true, lookup_assign]
          simp [hk]
        · have hbeq : (jsDrop e.1 3 == k) = false := beq_false_of_ne hk
          simp only [hpre, hbeq, Bool.and_false, flagOverrideStep, if_true, lookup_assign, ih]
          have hne : ¬(k = jsDrop e.1 3) := fun h => hk h.symm
          simp [hne]
      · have hpre' : jsStartsWith e.1 "ff." = false := by simpa using hpre
        simp [flagOverrideStep, hpre', ih]

theorem contains_true_literals (x : String) :
    TRUE_LITERALS.contains x = (x == "1" || x == "true") := by
  cases h1 : x == "1" <;> cases h2 : x == "true" <;>
    simp [TRUE_LITERALS, List.contains, List.elem, h1, h2]

theorem resolve_eq_gate (env : JsEnv) (definitions : List (String × ParamStoreDefinition))
    (storeKey paramKey : String) (entries : List (String × String)) (testEnv : Bool)
    (cs : ClientStore) (sd : ParamStoreDefinition) (d : ParamDefinition)
    (hs : List.lookup storeKey definitions = some sd)
    (hp : List.lookup paramKey sd.params = some d) :
    ParamStore.resolve env definitions storeKey paramKey entries testEnv cs
      = .ok (schemaGate d
          (resolvePriority d (lookup2 (ParamStore.parseUrlOverrides env definitions entries)
            storeKey paramKey) testEnv cs paramKey).1
          (resolvePriority d (lookup2 (ParamStore.parseUrlOverrides env definitions entries)
            storeKey paramKey) testEnv cs paramKey).2) := by
  simp [ParamStore.resolve, hs, hp]

theorem schemaGate_source_of_ne (d : ParamDefinition) (v : Value) (s : Source)
    (h : s ≠ Source.remote) : (schemaGate d v s).source = s := by
  unfold schemaGate
  cases d.schema.safeParse v <;> simp [h]

theorem schemaGate_source_remote (d : ParamDefinition) (v : Value) :
    (schemaGate d v Source.remote).source = Source.remote
      ∨ (schemaGate d v Source.remote).source = Source.fallback := by
  unfold schemaGate
  cases d.schema.safeParse v <;> simp

/-! ## Claims -/

/-- C8: the flag URL-override parser maps exactly the query parameters whose
names start with `ff.`, keyed by the stripped name: looking up `k` finds the
last entry named with prefix `ff.` stripping to `k` (later entries overwrite
earlier ones, as JS object assignment does), and its value maps to `true`
exactly when the trimmed, lowercased value string equals `1` or `true` —
every other string maps to `false`, every other parameter is ignored — and an
absent query string (the empty entry list) yields the empty mapping; the
parser is a total function, so it never raises. -/
theorem flag_url_parser_exact (entries : List (String × String)) (k : String) :
    List.lookup k (parseUrlOverrides entries)
      = (entries.reverse.find?
            (fun e => jsStartsWith e.1 "ff." && (jsDrop e.1 3 == k))).map
          (fun e => jsToLower (jsTrim e.2) == "1" || jsToLower (jsTrim e.2) == "true")
    ∧ parseUrlOverrides [] = [] := by
  refine ⟨?_, rfl⟩
  rw [parseUrlOverrides, lookup_flag_foldl]
  cases hf : entries.reverse.find? (fun e => jsStartsWith e.1 "ff." && (jsDrop e.1 3 == k)) with
  | none => simp
  | some e => exact congrArg some (contains_true_literals _)

/-- C1: for a declared flag key and a declared (store, parameter) pair, a
resolution call yields exactly one source out of url, test, override, remote
and fallback, picked by the strict short-circuiting priority: url when a URL
override exists for the exact key, otherwise test when the test predicate
holds and a testOverride is declared, otherwise override when a static
override is declared, otherwise remote or fallback — regardless of the
values held by lower-priority sources. -/
theorem resolve_respects_priority
    (fdefs : List (String × FlagDefinition)) (fd : FlagDefinition) (key : String)
    (fentries : List (String × String)) (ftest : Bool) (remote : Except Unit FeatureGate)
    (env : JsEnv) (pdefs : List (String × ParamStoreDefinition)) (sd : ParamStoreDefinition)
    (pd : ParamDefinition) (storeKey paramKey : String) (pentries : List (String × String))
    (ptest : Bool) (cs : ClientStore)
    (hf : List.lookup key fdefs = some fd)
    (hs : List.lookup storeKey pdefs = some sd)
    (hp : List.lookup paramKey sd.params = some pd) :
    (FlagStore.resolve fdefs key fentries ftest remote).source
        ∈ specAllowedSources (List.lookup key (parseUrlOverrides fentries)).isSome
            ftest fd.testOverride.isSome fd.override.isSome
    ∧ ∃ st, ParamStore.resolve env pdefs storeKey paramKey pentries ptest cs = .ok st
        ∧ st.source ∈ specAllowedSources
            (lookup2 (ParamStore.parseUrlOverrides env pdefs pentries) storeKey paramKey).isSome
            ptest pd.testOverride.isSome pd.override.isSome := by
  constructor
  · unfold FlagStore.resolve specAllowedSources
    rw [hf]
    cases hu : List.lookup key (parseUrlOverrides fentries) with
    | some b => simp
    | none =>
        by_cases ht : (ftest && fd.testOverride.isSome) = true
        · simp [ht]
        · rw [Bool.not_eq_true] at ht
          by_cases ho : fd.override.isSome = true
          · simp [ht, ho]
          · rw [Bool.not_eq_true] at ho
            cases remote with
            | ok g => cases htr : truthyStr g.idType <;> simp [ht, ho, htr]
            | error e => simp [ht, ho]
  · refine ⟨_, resolve_eq_gate env pdefs storeKey paramKey pentries ptest cs sd pd hs hp, ?_⟩
    unfold specAllowedSources
    cases hu : lookup2 (ParamStore.parseUrlOverrides env pdefs pentries) storeKey paramKey with
    | some v =>
        have h := schemaGate_source_of_ne pd v Source.url (by simp)
        simp [resolvePriority, hu, h]
    | none =>
        by_cases ht : (ptest && pd.testOverride.isSome) = true
        · have h := schemaGate_source_of_ne pd (pd.testOverride.getD pd.fallback) Source.test
            (by simp)
          simp [resolvePriority, hu, ht, h]
        · rw [Bool.not_eq_true] at ht
          by_cases ho : pd.override.isSome = true
          · have h := schemaGate_source_of_ne pd (pd.override.getD pd.fallback) Source.override
              (by simp)
            simp [resolvePriority, hu, ht, ho, h]
          · rw [Bool.not_eq_true] at ho
            cases hc : cs.configuration paramKey with
            | some c =>
                rcases schemaGate_source_remote pd (cs.get paramKey pd.fallback) with h | h <;>
                  simp [resolvePriority, hu, ht, ho, hc, h]
            | none =>
                have h := schemaGate_source_of_ne pd pd.fallback Source.fallback (by simp)
                simp [resolvePriority, hu, ht, ho, hc, h]

/-- Witness for C1 at concrete inputs: a flag whose test override wins (test
environment on, static override also declared) and a parameter resolved from
a URL override. -/
theorem resolve_respects_priority_witness :
    List.lookup "k" ([("k", ⟨some true, some false⟩)] : List (String × FlagDefinition))
        = some ⟨some true, some false⟩
    ∧ List.lookup "s" storeDefs = some ⟨[("count", countParam)]⟩
    ∧ List.lookup "count" (⟨[("count", countParam)]⟩ : ParamStoreDefinition).params
        = some countParam
    ∧ ((FlagStore.resolve [("k", ⟨some true, some false⟩)] "k" [] true (.error ())).source
          ∈ specAllowedSources (List.lookup "k" (parseUrlOverrides [])).isSome
              true (some true : Option Bool).isSome (some false : Option Bool).isSome
        ∧ ∃ st, ParamStore.resolve env0 storeDefs "s" "count" [("fp.s.count", "42")] false cs0
              = .ok st
            ∧ st.source ∈ specAllowedSources
                (lookup2 (ParamStore.parseUrlOverrides env0 storeDefs [("fp.s.count", "42")])
                  "s" "count").isSome
                false countParam.testOverride.isSome countParam.override.isSome) :=
  ⟨rfl, rfl, rfl,
    resolve_respects_priority [("k", ⟨some true, some false⟩)] ⟨some true, some false⟩ "k"
      [] true (.error ()) env0 storeDefs ⟨[("count", countParam)]⟩ countParam "s" "count"
      [("fp.s.count", "42")] false cs0 rfl rfl rfl⟩

/-- C2 counterexample: with flag `k` declared with no overrides, a gate
carrying value `true` and an empty identifier-type string resolves to source
`fallback` but keeps the gate's value `true` — not the boolean fallback value
`false` the claim requires. -/
theorem empty_idType_counterexample :
    FlagStore.resolve [("k", {})] "k" [] false (.ok { value := true, idType := some "" })
      = { flag := true, source := Source.fallback }
    ∧ ({ flag := true, source := Source.fallback } : FlagState).flag ≠ false :=
  ⟨rfl, by decide⟩

/-- C2 (amended): when no URL, test or static override applies and the
returned gate's identifier-type field is absent or empty, the source is
`fallback` and the value is the gate's own value — the boolean fallback
`false` appears only when the gate itself carries `false` (or when the
provider throws). -/
theorem empty_idType_fallback_keeps_gate_value
    (fdefs : List (String × FlagDefinition)) (fd : FlagDefinition) (key : String)
    (entries : List (String × String)) (testEnv : Bool) (gate : FeatureGate)
    (hf : List.lookup key fdefs = some fd)
    (hu : List.lookup key (parseUrlOverrides entries) = none)
    (ht : (testEnv && fd.testOverride.isSome) = false)
    (ho : fd.override = none)
    (hid : gate.idType = none ∨ gate.idType = some "") :
    FlagStore.resolve fdefs key entries testEnv (.ok gate)
      = { flag := gate.value, source := Source.fallback } := by
  unfold FlagStore.resolve
  rw [hf, hu]
  rcases hid with h | h <;> simp [ht, ho, truthyStr, h]

/-- Witness for C2 (amended) at a concrete gate with value `true` and empty
identifier type. -/
theorem empty_idType_fallback_keeps_gate_value_witness :
    List.lookup "k" ([("k", {})] : List (String × FlagDefinition)) = some {}
    ∧ List.lookup "k" (parseUrlOverrides []) = none
    ∧ ((false : Bool) && (FlagDefinition.testOverride {}).isSome) = false
    ∧ FlagDefinition.override {} = none
    ∧ (FeatureGate.idType { value := true, idType := some "" } = none
        ∨ FeatureGate.idType { value := true, idType := some "" } = some "")
    ∧ FlagStore.resolve [("k", {})] "k" [] false (.ok { value := true, idType := some "" })
        = { flag := FeatureGate.value { value := true, idType := some "" },
            source := Source.fallback } :=
  ⟨rfl, rfl, rfl, rfl, Or.inr rfl,
    empty_idType_fallback_keeps_gate_value [("k", {})] {} "k" [] false
      { value := true, idType := some "" } rfl rfl rfl rfl (Or.inr rfl)⟩

/-- C3 counterexample: `getFlagState` on a key absent from the definition
registry does not raise a configuration error; it silently returns the
defaulted state. -/
theorem unknown_flag_counterexample :
    FlagStore.getFlagState [] "missing" [] false (.error ())
      = { flag := false, source := Source.fallback } := rfl

/-- C3 (amended): parameter resolution on an undeclared store or parameter
raises a configuration error whose message names the missing key —
through `getParamState`, `resolve` and `getParam` alike; flag resolution on
an undeclared key does not raise but silently returns the defaulted state
with value `false` and source `fallback` (undeclared flag keys are instead
rejected at compile time by the source-language types). -/
theorem unknown_key_handling
    (env : JsEnv) (pdefs : List (String × ParamStoreDefinition)) (storeKey paramKey : String)
    (pentries : List (String × String)) (ptest : Bool) (cs : ClientStore)
    (fdefs : List (String × FlagDefinition)) (key : String)
    (fentries : List (String × String)) (ftest : Bool) (remote : Except Unit FeatureGate)
    (hflag : List.lookup key fdefs = none) :
    (List.lookup storeKey pdefs = none →
       ParamStore.getParamState env pdefs storeKey paramKey pentries ptest cs
         = .error ("[ParamStore] Unknown store: " ++ storeKey))
    ∧ (∀ sd, List.lookup storeKey pdefs = some sd →
         List.lookup paramKey sd.params = none →
         ParamStore.getParamState env pdefs storeKey paramKey pentries ptest cs
           = .error ("[ParamStore] Unknown param: " ++ storeKey ++ "." ++ paramKey))
    ∧ (List.lookup storeKey pdefs = none →
       ParamStore.getParam env pdefs storeKey paramKey pentries ptest cs
         = .error ("[ParamStore] Unknown store: " ++ storeKey))
    ∧ FlagStore.getFlagState fdefs key fentries ftest remote
        = { flag := false, source := Source.fallback } := by
  refine ⟨?_, ?_, ?_, ?_⟩
  · intro h
    simp [ParamStore.getParamState, ParamStore.resolve, h]
  · intro sd h1 h2
    simp [ParamStore.getParamState, ParamStore.resolve, h1, h2]
  · intro h
    simp [ParamStore.getParam, ParamStore.resolve, h, Except.map]
  · simp [FlagStore.getFlagState, FlagStore.resolve, hflag]

/-- Witness for C3 (amended) at concrete inputs: an empty flag registry and a
store key absent from `storeDefs`. -/
theorem unknown_key_handling_witness :
    List.lookup "missing" ([] : List (String × FlagDefinition)) = none
    ∧ ((List.lookup "nope" storeDefs = none →
          ParamStore.getParamState env0 storeDefs "nope" "q" [] false cs0
            = .error ("[ParamStore] Unknown store: " ++ "nope"))
        ∧ (∀ sd, List.lookup "nope" storeDefs = some sd →
             List.lookup "q" sd.params = none →
             ParamStore.getParamState env0 storeDefs "nope" "q" [] false cs0
               = .error ("[ParamStore] Unknown param: " ++ "nope" ++ "." ++ "q"))
        ∧ (List.lookup "nope" storeDefs = none →
           ParamStore.getParam env0 storeDefs "nope" "q" [] false cs0
             = .error ("[ParamStore] Unknown store: " ++ "nope"))
        ∧ FlagStore.getFlagState [] "missing" [] false (.error ())
            = { flag := false, source := Source.fallback }) :=
  ⟨rfl, unknown_key_handling env0 storeDefs "nope" "q" [] false cs0 [] "missing" [] false
    (.error ()) rfl⟩

/-- C5: an exception thrown during the remote step of flag resolution
(provider evaluation or the client-access call) is caught: when no URL, test
or static override applies, the call returns `{flag: false, source:
fallback}` — the same state as a remote evaluation reporting no identifier
type and value `false` — and, the embedded `resolve` being a total function
into `FlagState`, no exception ever reaches the caller. -/
theorem remote_throw_degrades_to_fallback
    (fdefs : List (String × FlagDefinition)) (fd : FlagDefinition) (key : String)
    (entries : List (String × String)) (testEnv : Bool) (e : Unit)
    (hf : List.lookup key fdefs = some fd)
    (hu : List.lookup key (parseUrlOverrides entries) = none)
    (ht : (testEnv && fd.testOverride.isSome) = false)
    (ho : fd.override = none) :
    FlagStore.resolve fdefs key entries testEnv (.error e)
      = { flag := false, source := Source.fallback }
    ∧ FlagStore.resolve fdefs key entries testEnv (.error e)
        = FlagStore.resolve fdefs key entries testEnv
            (.ok { value := false, idType := none }) := by
  unfold FlagStore.resolve
  rw [hf, hu]
  constructor <;> simp [ht, ho, truthyStr]

/-- Witness for C5 at concrete inputs. -/
theorem remote_throw_degrades_to_fallback_witness :
    List.lookup "k" ([("k", {})] : List (String × FlagDefinition)) = some {}
    ∧ List.lookup "k" (parseUrlOverrides []) = none
    ∧ ((false : Bool) && (FlagDefinition.testOverride {}).isSome) = false
    ∧ FlagDefinition.override {} = none
    ∧ (FlagStore.resolve [("k", {})] "k" [] false (.error ())
          = { flag := false, source := Source.fallback }
        ∧ FlagStore.resolve [("k", {})] "k" [] false (.error ())
            = FlagStore.resolve [("k", {})] "k" [] false
                (.ok { value := false, idType := none })) :=
  ⟨rfl, rfl, rfl, rfl,
    remote_throw_degrades_to_fallback [("k", {})] {} "k" [] false () rfl rfl rfl rfl⟩

/-- C4: after the priority chain yields a candidate value and source, the
schema gate alone determines the returned state: an accepted candidate
returns the validator's parsed data with the source unchanged and no error;
a rejected candidate with source `remote` returns the declared fallback
re-tagged `fallback` with the error and no fallback field; a rejected
candidate with source `url`, `test` or `override` keeps the raw candidate and
its source, annotated with both the error and the declared fallback. -/
theorem schema_gate_determines_state
    (env : JsEnv) (pdefs : List (String × ParamStoreDefinition)) (sd : ParamStoreDefinition)
    (d : ParamDefinition) (storeKey paramKey : String) (entries : List (String × String))
    (testEnv : Bool) (cs : ClientStore)
    (hs : List.lookup storeKey pdefs = some sd)
    (hp : List.lookup paramKey sd.params = some d) :
    ParamStore.resolve env pdefs storeKey paramKey entries testEnv cs
      = .ok (schemaGate d
          (resolvePriority d (lookup2 (ParamStore.parseUrlOverrides env pdefs entries)
            storeKey paramKey) testEnv cs paramKey).1
          (resolvePriority d (lookup2 (ParamStore.parseUrlOverrides env pdefs entries)
            storeKey paramKey) testEnv cs paramKey).2)
    ∧ (∀ v s data, d.schema.safeParse v = some data →
        schemaGate d v s = { value := data, source := s })
    ∧ (∀ v, d.schema.safeParse v = none →
        schemaGate d v Source.remote
          = { value := d.fallback, source := Source.fallback, error := true })
    ∧ (∀ v s, d.schema.safeParse v = none →
        (s = Source.url ∨ s = Source.test ∨ s = Source.override) →
        schemaGate d v s
          = { value := v, source := s, error := true, fallback := some d.fallback }) := by
  refine ⟨resolve_eq_gate env pdefs storeKey paramKey entries testEnv cs sd d hs hp, ?_, ?_, ?_⟩
  · intro v s data hv
    simp [schemaGate, hv]
  · intro v hv
    simp [schemaGate, hv]
  · intro v s hv hsrc
    rcases hsrc with h | h | h <;> subst h <;> simp [schemaGate, hv]

/-- Witness for C4: the schema gate drives the resolution of `s.count`
against a snapshot whose remote value is a string rejected by the number
schema. -/
theorem schema_gate_determines_state_witness :
    List.lookup "s" storeDefs = some ⟨[("count", countParam)]⟩
    ∧ List.lookup "count" (⟨[("count", countParam)]⟩ : ParamStoreDefinition).params
        = some countParam
    ∧ ParamStore.resolve env0 storeDefs "s" "count" [] false csStr
        = .ok (schemaGate countParam
            (resolvePriority countParam (lookup2 (ParamStore.parseUrlOverrides env0 storeDefs [])
              "s" "count") false csStr "count").1
            (resolvePriority countParam (lookup2 (ParamStore.parseUrlOverrides env0 storeDefs [])
              "s" "count") false csStr "count").2) :=
  ⟨rfl, rfl,
    (schema_gate_determines_state env0 storeDefs ⟨[("count", countParam)]⟩ countParam
      "s" "count" [] false csStr rfl rfl).1⟩

/-- C10: a remote-sourced candidate rejected by the schema is replaced by the
declared fallback returned verbatim — the substituted value is not itself
re-validated or normalized, and the state carries no separate fallback field;
the statement needs no assumption on how the schema treats the declared
fallback, so it holds even when the declared fallback itself fails the
schema. -/
theorem remote_mismatch_fallback_verbatim
    (env : JsEnv) (pdefs : List (String × ParamStoreDefinition)) (sd : ParamStoreDefinition)
    (d : ParamDefinition) (storeKey paramKey : String) (entries : List (String × String))
    (testEnv : Bool) (cs : ClientStore) (cfgv : Value)
    (hs : List.lookup storeKey pdefs = some sd)
    (hp : List.lookup paramKey sd.params = some d)
    (hu : lookup2 (ParamStore.parseUrlOverrides env pdefs entries) storeKey paramKey = none)
    (ht : (testEnv && d.testOverride.isSome) = false)
    (ho : d.override = none)
    (hcfg : cs.configuration paramKey = some cfgv)
    (hfail : d.schema.safeParse (cs.get paramKey d.fallback) = none) :
    ParamStore.resolve env pdefs storeKey paramKey entries testEnv cs
      = .ok { value := d.fallback, source := Source.fallback, error := true,
              fallback := none } := by
  rw [resolve_eq_gate env pdefs storeKey paramKey entries testEnv cs sd d hs hp, hu]
  simp [resolvePriority, ht, ho, hcfg, schemaGate, hfail]

/-- Witness for C10: the rejecting schema rejects both the remote string and
its own fallback; the declared fallback 0 is still returned verbatim. -/
theorem remote_mismatch_fallback_verbatim_witness :
    List.lookup "s" rejectDefs = some ⟨[("p", rejectParam)]⟩
    ∧ List.lookup "p" (⟨[("p", rejectParam)]⟩ : ParamStoreDefinition).params = some rejectParam
    ∧ lookup2 (ParamStore.parseUrlOverrides env0 rejectDefs []) "s" "p" = none
    ∧ ((false : Bool) && rejectParam.testOverride.isSome) = false
    ∧ rejectParam.override = none
    ∧ csStr.configuration "p" = some Value.null
    ∧ rejectParam.schema.safeParse (csStr.get "p" rejectParam.fallback) = none
    ∧ ParamStore.resolve env0 rejectDefs "s" "p" [] false csStr
        = .ok { value := rejectParam.fallback, source := Source.fallback, error := true,
                fallback := none } :=
  ⟨rfl, rfl, rfl, rfl, rfl, rfl, rfl,
    remote_mismatch_fallback_verbatim env0 rejectDefs ⟨[("p", rejectParam)]⟩ rejectParam
      "s" "p" [] false csStr Value.null rfl rfl rfl rfl rfl rfl rfl⟩

/-- C6 counterexample: with no remote entry the declared fallback is pushed
through the schema gate, so a value-transforming schema — `incSchema` models
the legal `z.ZodType<number>` built by `z.number().transform(n => n + 1)` —
makes the resolution return the transformed value 1 with source `fallback`,
not the declared fallback 0 that the claim requires. -/
theorem no_remote_entry_transformed_counterexample :
    ParamStore.resolve env0 transformDefs "s" "p" [] false cs0
      = .ok { value := Value.num 1, source := Source.fallback }
    ∧ Value.num 1 ≠ Value.num 0 :=
  ⟨rfl, by simp⟩

/-- C6 (amended): when no URL, test or static override applies and the
snapshot reports no configuration entry for the parameter, the candidate
handed to the schema gate is the declared fallback with source `fallback`,
and the snapshot's `get` is never invoked — the result is the same for any
two entry-less snapshots, whatever their `get` returns. The returned source
is `fallback`, and the returned value equals the declared fallback whenever
the schema rejects it or parses it to itself; a transforming schema returns
the schema's parse of the fallback instead. -/
theorem no_remote_entry_skips_get
    (env : JsEnv) (pdefs : List (String × ParamStoreDefinition)) (sd : ParamStoreDefinition)
    (d : ParamDefinition) (storeKey paramKey : String) (entries : List (String × String))
    (testEnv : Bool) (cs cs₂ : ClientStore)
    (hs : List.lookup storeKey pdefs = some sd)
    (hp : List.lookup paramKey sd.params = some d)
    (hu : lookup2 (ParamStore.parseUrlOverrides env pdefs entries) storeKey paramKey = none)
    (ht : (testEnv && d.testOverride.isSome) = false)
    (ho : d.override = none)
    (hcfg : cs.configuration paramKey = none)
    (hcfg₂ : cs₂.configuration paramKey = none) :
    ParamStore.resolve env pdefs storeKey paramKey entries testEnv cs
      = .ok (schemaGate d d.fallback Source.fallback)
    ∧ ParamStore.resolve env pdefs storeKey paramKey entries testEnv cs
        = ParamStore.resolve env pdefs storeKey paramKey entries testEnv cs₂
    ∧ (schemaGate d d.fallback Source.fallback).source = Source.fallback
    ∧ (d.schema.safeParse d.fallback = none →
        (schemaGate d d.fallback Source.fallback).value = d.fallback)
    ∧ (d.schema.safeParse d.fallback = some d.fallback →
        (schemaGate d d.fallback Source.fallback).value = d.fallback) := by
  have hpr : ∀ c : ClientStore, c.configuration paramKey = none →
      resolvePriority d (none : Option Value) testEnv c paramKey
        = (d.fallback, Source.fallback) := by
    intro c hc
    simp [resolvePriority, ht, ho, hc]
  have h1 := resolve_eq_gate env pdefs storeKey paramKey entries testEnv cs sd d hs hp
  have h2 := resolve_eq_gate env pdefs storeKey paramKey entries testEnv cs₂ sd d hs hp
  rw [hu, hpr cs hcfg] at h1
  rw [hu, hpr cs₂ hcfg₂] at h2
  refine ⟨h1, h2 ▸ h1, schemaGate_source_of_ne d d.fallback Source.fallback (by simp), ?_, ?_⟩
  · intro h
    simp [schemaGate, h]
  · intro h
    simp [schemaGate, h]

/-- Witness for C6 (amended): the identity number schema parses the fallback
0 to itself; two entry-less snapshots with different `get` functions give the
same resolution. -/
theorem no_remote_entry_skips_get_witness :
    List.lookup "s" storeDefs = some ⟨[("count", countParam)]⟩
    ∧ List.lookup "count" (⟨[("count", countParam)]⟩ : ParamStoreDefinition).params
        = some countParam
    ∧ lookup2 (ParamStore.parseUrlOverrides env0 storeDefs []) "s" "count" = none
    ∧ ((false : Bool) && countParam.testOverride.isSome) = false
    ∧ countParam.override = none
    ∧ cs0.configuration "count" = none
    ∧ csAlt.configuration "count" = none
    ∧ (ParamStore.resolve env0 storeDefs "s" "count" [] false cs0
          = .ok (schemaGate countParam countParam.fallback Source.fallback)
        ∧ ParamStore.resolve env0 storeDefs "s" "count" [] false cs0
            = ParamStore.resolve env0 storeDefs "s" "count" [] false csAlt
        ∧ (schemaGate countParam countParam.fallback Source.fallback).source = Source.fallback
        ∧ (countParam.schema.safeParse countParam.fallback = none →
            (schemaGate countParam countParam.fallback Source.fallback).value
              = countParam.fallback)
        ∧ (countParam.schema.safeParse countParam.fallback = some countParam.fallback →
            (schemaGate countParam countParam.fallback Source.fallback).value
              = countParam.fallback)) :=
  ⟨rfl, rfl, rfl, rfl, rfl, rfl, rfl,
    no_remote_entry_skips_get env0 storeDefs ⟨[("count", countParam)]⟩ countParam "s" "count"
      [] false cs0 csAlt rfl rfl rfl rfl rfl rfl rfl⟩

/-- C7: the dotted-form URL override value is coerced by the ordered chain of
`tryCoerce` — syntactically JSON object/array text is JSON-parsed; otherwise,
when a definition (hence schema) is known for the (store, param) pair, a
numeric parse is accepted only if the schema accepts the parsed number, then
each of the literals `true`/`false`/`null` only if the schema accepts that
exact value; otherwise (and always when no definition is known) the raw
string is kept — and in particular, with the number-schema parameter `count`
of store `s`, the query `?fp.s.count=42` resolves end to end to the number 42
with source `url`, for any snapshot handle. -/
theorem dotted_url_coercion_chain (env : JsEnv)
    (hnum : env.jsNumber "42" = some 42) :
    (∀ cs, ParamStore.resolve env storeDefs "s" "count" [("fp.s.count", "42")] false cs
        = .ok { value := Value.num 42, source := Source.url })
    ∧ (∀ raw d v, jsonAttempt env raw = some v → tryCoerce env raw d = v)
    ∧ (∀ raw dd n, jsonAttempt env raw = none → env.jsNumber raw = some n →
        (dd.schema.safeParse (Value.num n)).isSome = true →
        tryCoerce env raw (some dd) = Value.num n)
    ∧ (∀ raw dd, jsonAttempt env raw = none →
        (∀ n, env.jsNumber raw = some n → (dd.schema.safeParse (Value.num n)).isSome = false) →
        raw = "true" → (dd.schema.safeParse (Value.bool true)).isSome = true →
        tryCoerce env raw (some dd) = Value.bool true)
    ∧ (∀ raw dd, jsonAttempt env raw = none →
        (∀ n, env.jsNumber raw = some n → (dd.schema.safeParse (Value.num n)).isSome = false) →
        raw = "false" → (dd.schema.safeParse (Value.bool false)).isSome = true →
        tryCoerce env raw (some dd) = Value.bool false)
    ∧ (∀ raw dd, jsonAttempt env raw = none →
        (∀ n, env.jsNumber raw = some n → (dd.schema.safeParse (Value.num n)).isSome = false) →
        raw = "null" → (dd.schema.safeParse Value.null).isSome = true →
        tryCoerce env raw (some dd) = Value.null)
    ∧ (∀ raw dd, jsonAttempt env raw = none →
        (∀ n, env.jsNumber raw = some n → (dd.schema.safeParse (Value.num n)).isSome = false) →
        (raw = "true" → (dd.schema.safeParse (Value.bool true)).isSome = false) →
        (raw = "false" → (dd.schema.safeParse (Value.bool false)).isSome = false) →
        (raw = "null" → (dd.schema.safeParse Value.null).isSome = false) →
        tryCoerce env raw (some dd) = Value.str raw)
    ∧ (∀ raw, jsonAttempt env raw = none → tryCoerce env raw none = Value.str raw) := by
  have hlit : ∀ (dd : ParamDefinition) (raw : String),
      (raw = "true" → (dd.schema.safeParse (Value.bool true)).isSome = false) →
      (raw = "false" → (dd.schema.safeParse (Value.bool false)).isSome = false) →
      (raw = "null" → (dd.schema.safeParse Value.null).isSome = false) →
      tryCoerceLiterals dd raw = Value.str raw := by
    intro dd raw h1 h2 h3
    unfold tryCoerceLiterals
    by_cases e1 : raw = "true"
    · subst e1
      simp [h1 rfl]
    · by_cases e2 : raw = "false"
      · subst e2
        simp [h2 rfl]
      · by_cases e3 : raw = "null"
        · subst e3
          simp [h3 rfl]
        · simp [beq_false_of_ne e1, beq_false_of_ne e2, beq_false_of_ne e3]
  refine ⟨?_, ?_, ?_, ?_, ?_, ?_, ?_, ?_⟩
  · intro cs
    have hco : tryCoerce env "42" (some countParam) = Value.num 42 := by
      have hj : jsonAttempt env "42" = none := rfl
      simp only [tryCoerce, hj, hnum]
      simp [countParam, numberSchema]
    calc ParamStore.resolve env storeDefs "s" "count" [("fp.s.count", "42")] false cs
        = .ok (schemaGate countParam (tryCoerce env "42" (some countParam)) Source.url) := rfl
      _ = .ok { value := Value.num 42, source := Source.url } := by
          rw [hco]
          rfl
  · intro raw d v h
    simp [tryCoerce, h]
  · intro raw dd n hj hn hacc
    simp [tryCoerce, hj, hn, hacc]
  · intro raw dd hj hrej htrue hacc
    subst htrue
    have hstep : tryCoerceLiterals dd "true" = Value.bool true := by
      simp [tryCoerceLiterals, hacc]
    cases hn : env.jsNumber "true" with
    | none => simp [tryCoerce, hj, hn, hstep]
    | some n => simp [tryCoerce, hj, hn, hrej n hn, hstep]
  · intro raw dd hj hrej hfalse hacc
    subst hfalse
    have hstep : tryCoerceLiterals dd "false" = Value.bool false := by
      simp [tryCoerceLiterals, hacc]
    cases hn : env.jsNumber "false" with
    | none => simp [tryCoerce, hj, hn, hstep]
    | some n => simp [tryCoerce, hj, hn, hrej n hn, hstep]
  · intro raw dd hj hrej hnull hacc
    subst hnull
    have hstep : tryCoerceLiterals dd "null" = Value.null := by
      simp [tryCoerceLiterals, hacc]
    cases hn : env.jsNumber "null" with
    | none => simp [tryCoerce, hj, hn, hstep]
    | some n => simp [tryCoerce, hj, hn, hrej n hn, hstep]
  · intro raw dd hj hrej h1 h2 h3
    have hstep := hlit dd raw h1 h2 h3
    cases hn : env.jsNumber raw with
    | none => simp [tryCoerce, hj, hn, hstep]
    | some n => simp [tryCoerce, hj, hn, hrej n hn, hstep]
  · intro raw hj
    simp [tryCoerce, hj]

/-- Witness for C7: with the concrete environment, `?fp.s.count=42` resolves
to the number 42 from source `url`. -/
theorem dotted_url_coercion_chain_witness :
    env0.jsNumber "42" = some 42
    ∧ ParamStore.resolve env0 storeDefs "s" "count" [("fp.s.count", "42")] false cs0
        = .ok { value := Value.num 42, source := Source.url } :=
  ⟨rfl, (dotted_url_coercion_chain env0 rfl).1 cs0⟩

/-- C9: a whole-store override entry whose value JSON.parse accepts but which
is not a plain object — an array, string, number, boolean or null — is
dropped exactly like malformed JSON: the parsed override mapping is the one
obtained with the entry absent, every other entry of the query string
contributing unchanged. -/
theorem whole_store_non_object_dropped
    (env : JsEnv) (pdefs : List (String × ParamStoreDefinition))
    (pre post : List (String × String)) (key value : String) (v : Value)
    (hkey : jsStartsWith key "fp." = true)
    (hnodot : jsSplitOnDot (jsDrop key 3) = [jsDrop key 3])
    (hjson : env.jsonParse value = some v)
    (hv : v.isObj = false) :
    ParamStore.parseUrlOverrides env pdefs (pre ++ (key, value) :: post)
      = ParamStore.parseUrlOverrides env pdefs (pre ++ post) := by
  have hstep : ∀ A, paramOverrideStep env pdefs A (key, value) = A := by
    intro A
    unfold paramOverrideStep
    simp only [hkey, if_true]
    rw [hnodot, hjson]
    cases v <;> simp_all [Value.isObj]
  unfold ParamStore.parseUrlOverrides
  rw [List.foldl_append, List.foldl_append, List.foldl_cons, hstep]

/-- Witness for C9: a whole-store entry for store `s` whose value parses to a
JSON array leaves the dotted override of `s.count` untouched. -/
theorem whole_store_non_object_dropped_witness :
    jsStartsWith "fp.s" "fp." = true
    ∧ jsSplitOnDot (jsDrop "fp.s" 3) = [jsDrop "fp.s" 3]
    ∧ env0.jsonParse "[1,2]" = some (Value.arr [Value.num 1, Value.num 2])
    ∧ Value.isObj (Value.arr [Value.num 1, Value.num 2]) = false
    ∧ ParamStore.parseUrlOverrides env0 storeDefs
          ([("fp.s.count", "42")] ++ ("fp.s", "[1,2]") :: [("other", "x")])
        = ParamStore.parseUrlOverrides env0 storeDefs ([("fp.s.count", "42")] ++ [("other", "x")]) :=
  ⟨rfl, rfl, rfl, rfl,
    whole_store_non_object_dropped env0 storeDefs [("fp.s.count", "42")] [("other", "x")]
      "fp.s" "[1,2]" (Value.arr [Value.num 1, Value.num 2]) rfl rfl rfl rfl⟩

end Flags
